import Mathlib

/-!
Verification development for the `psql` module: a small ORM layer whose core
pieces are a constraint-to-SQL compiler (`SQLObject._retrieve` / `SQLObject.gets`),
an n-way list intersection utility (`intersect`), primary-key sequence helpers
(`get_next_id`, `get_increment`), single-row retrieval (`get`), the suppressing
variants (`fetchs`), in-memory filtering (`ResponseObjectList.selectwhere`) and a
memoization cache (`DictCache.cache`).

Strings are modelled as `List Char` so that Python string primitives
(`str.strip`, slicing, concatenation, `repr`) can be embedded exactly.
-/

namespace Psql

/-- Python strings are modelled as lists of characters. -/
abbrev Str := List Char

/-- Conversion from a Lean string literal to the character-list model. -/
def str (s : String) : Str := s.toList

/-- Error channel for the Python exceptions raised by the module:
`KeyError` (not found / dict lookup miss), `ResponseAmbiguousError`,
`IndexError` and `TypeError`. -/
inductive Err where
  | keyError
  | ambiguousError
  | indexError
  | typeError
deriving DecidableEq

/-- The module-level comparator table `OPERATORS`, mapping the two-character
symbolic tags to SQL operator text. -/
def OPERATORS : List (Str × Str) :=
  [(str ("=="), str ("="))
  ,(str ("<<"), str ("<"))
  ,(str (">>"), str (">"))
  ,(str ("<="), str ("<="))
  ,(str (">="), str (">="))
  ,(str ("IS"), str ("IS NULL"))]

/-- The single-quote character, written by code point to keep the source plain. -/
def squote : Char := Char.ofNat 39

/-- Python `repr` of a string value, for strings containing no quote,
backslash or control characters (every value considered in this development
is of that form): the text wrapped in single quotes. -/
def pyRepr (s : Str) : Str := squote :: s ++ [squote]

/-- Python `str.strip(chars)`: remove from both ends every leading/trailing
character that is a member of `chars` (a character set, not a substring). -/
def pyStrip (chars : Str) (s : Str) : Str :=
  ((s.dropWhile (fun x => List.contains chars x)).reverse.dropWhile
    (fun x => List.contains chars x)).reverse

/-- One constraint of `SQLObject._retrieve`: `operator = v[:2]`, then
`OPERATORS[operator]` (a failing lookup is Python `KeyError`, hence `none`),
then either `"{k} {op} AND "` for the `IS` tag or
`"{k} {op} {v[2:]!r} AND "` otherwise. -/
def compileConstraint (k : Str) (v : Str) : Option Str :=
  let operator := v.take 2
  match List.lookup operator OPERATORS with
  | none => none
  | some op =>
    if operator = str ("IS") then
      some (k ++ str (" ") ++ op ++ str (" AND "))
    else
      some (k ++ str (" ") ++ op ++ str (" ") ++ pyRepr (v.drop 2) ++ str (" AND "))

/-- The loop of `SQLObject._retrieve` over the constriction dict, concatenating
the rendered constraints; `none` as soon as one operator lookup raises. -/
def buildWhere : List (Str × Str) → Option Str
  | [] => some []
  | (k, v) :: rest =>
    match compileConstraint k v, buildWhere rest with
    | some c, some cs => some (c ++ cs)
    | _, _ => none

/-- The tail of `SQLObject._retrieve`:
`f"SELECT * FROM {cls.TABLE_NAME} {where}".strip("WHERE ")`. -/
def finishQuery (table w : Str) : Str :=
  pyStrip (str ("WHERE ")) (str ("SELECT * FROM ") ++ table ++ str (" ") ++ w)

/-- `SQLObject._retrieve(constrictions)` as the SQL text handed to the adapter
(`cls._db().query(...)` receives this single string and no bound parameters).
`none` models the constriction dict being Python `None`; an empty dict is falsy
and takes the same branch, leaving `where` as the bare `"WHERE "`. A `none`
result is the `KeyError` from an operator lookup. -/
def retrieveSQL (table : Str) (constrictions : Option (List (Str × Str))) : Option Str :=
  match constrictions with
  | none => some (finishQuery table (str ("WHERE ")))
  | some cs =>
    if cs.isEmpty then some (finishQuery table (str ("WHERE ")))
    else
      (buildWhere cs).map (fun body =>
        finishQuery table (pyStrip (str (" AND ")) (str ("WHERE ") ++ body)))

/-- The normalization loop of `SQLObject.gets` over one keyword value:
a Python `None` becomes the tag `"IS"`; a value whose first two characters are
not a key of `OPERATORS` is replaced by `"==" + str(v)`; otherwise the value is
kept unchanged. -/
def normalize (v : Option Str) : Str :=
  match v with
  | none => str ("IS")
  | some s =>
    if (List.lookup (s.take 2) OPERATORS).isSome then s else str ("==") ++ s

/-- `SQLObject.gets`: with no keyword arguments, `_retrieve` is called with no
constrictions; otherwise every value is normalized and `_retrieve` is called on
the normalized dict. The database round trip together with the concrete
entity type's `construct` hook is abstracted as `adapter`, a function from the
compiled SQL text to the constructed row list; a `none` from the compiler is
the propagated Python `KeyError`. -/
def gets {α : Type} (adapter : Str → List α) (table : Str)
    (kwargs : List (Str × Option Str)) : Except Err (List α) :=
  let run : Option (List (Str × Str)) → Except Err (List α) := fun constr =>
    match retrieveSQL table constr with
    | some sql => Except.ok (adapter sql)
    | none => Except.error Err.keyError
  if kwargs.isEmpty then run none
  else run (some (kwargs.map (fun kv => (kv.1, normalize kv.2))))

/-- `SQLObject.fetchs`: `gets` with a raised `KeyError` converted to the empty
collection; every other outcome is passed through unchanged. -/
def fetchs {α : Type} (adapter : Str → List α) (table : Str)
    (kwargs : List (Str × Option Str)) : Except Err (List α) :=
  match gets adapter table kwargs with
  | Except.error Err.keyError => Except.ok []
  | r => r

/-- The result-counting logic of `SQLObject.get`, over the element list the
inner `gets` call produced: more than one element raises
`ResponseAmbiguousError`, fewer than one raises `KeyError`, otherwise
`elements[0]` is returned (the final match is that indexing; its empty branch
is unreachable under the guards). -/
def get {α : Type} (elements : List α) : Except Err α :=
  if elements.length > 1 then Except.error Err.ambiguousError
  else if elements.length < 1 then Except.error Err.keyError
  else
    match elements with
    | a :: _ => Except.ok a
    | [] => Except.error Err.keyError

/-- `SQLObject.get_next_id`, over the list of primary-key values of the rows
`gets()` returns: `gets()[-1]` raises `IndexError` on an empty list, which is
caught and turned into `1`; otherwise the last primary value plus one. -/
def get_next_id (objs : List Int) : Int :=
  match objs.getLast? with
  | none => 1
  | some pv => pv + 1

/-- The loop body of `SQLObject.get_increment`, over the list of primary-key
values: `previous` starts as `None` and is replaced by the current object when
falsy (an `SQLObject` instance is always truthy, so the later
`if not previous: continue` guard never fires); `expected` is
`previous.primary_value() + 1` and is stored in `i`; when `expected` differs
from the current primary value it is returned at once; after the loop the code
returns `i + 1`, a `TypeError` (`none`) when `i` is still `None`. -/
def getIncrementGo (i previous : Option Int) : List Int → Option Int
  | [] => i.map (fun x => x + 1)
  | obj :: rest =>
    let prev := previous.getD obj
    let expected := prev + 1
    if expected = obj then getIncrementGo (some expected) (some obj) rest
    else some expected

/-- `SQLObject.get_increment`, over the list of primary-key values. -/
def get_increment (objs : List Int) : Option Int :=
  getIncrementGo none none objs

/-- The while loop of `intersect`: while more than one list remains, replace
the first two by their intersection and append that intersection to `result`.
The working list is always `cur :: rest`, so it is carried as the pair of its
head `cur` and tail `rest`, making the recursion structural on `rest`. -/
def intersectGo {α : Type} [DecidableEq α] (cur : Finset α) :
    List (Finset α) → List (Finset α) → List (Finset α)
  | [], result => result
  | b :: rest, result => intersectGo (cur ∩ b) rest (result ++ [cur ∩ b])

/-- The module-level `intersect(*args)`: one argument is returned unchanged;
with none, `set(_list[0])` raises `IndexError` (`none`); otherwise the first
two lists are intersected, the loop runs when more than two were given, and
`result[0]` — the FIRST pairwise intersection — is returned. Python sets are
modelled as `Finset`. -/
def intersect {α : Type} [DecidableEq α] (args : List (Finset α)) : Option (Finset α) :=
  if args.length = 1 then args.head?
  else
    match args with
    | [] => none
    | a :: b :: rest =>
      let conjunction := a ∩ b
      let result := [conjunction]
      let result := if args.length > 2 then intersectGo conjunction rest result else result
      result.head?
    | [_] => none

/-- Python dict lookup over an association list: `none` is a `KeyError`. -/
def dictLookup {κ ν : Type} [DecidableEq κ] (key : κ) : List (κ × ν) → Option ν
  | [] => none
  | (k, v) :: rest => if k = key then some v else dictLookup key rest

/-- A row for the in-memory filtering operations: attribute name to value. -/
abbrev Row := List (String × Int)

/-- Attribute access on a row. -/
def getattr (x : Row) (attr : String) : Option Int := dictLookup attr x

/-- The module-level `searches(table, attr, value)`: the rows whose attribute
equals the value. -/
def searches (table : List Row) (attr : String) (value : Int) : List Row :=
  table.filter (fun x => getattr x attr == some value)

/-- `ResponseObjectList.selectwhere`: an empty backing list raises
`IndexError` (`none`); otherwise each keyword constraint is turned into the
set of matching rows and `intersect` is applied to the list of those sets
(raising `IndexError`, hence `none`, when there are no keyword arguments).
The final `list(...)` materializes the set in unspecified order, so the result
is modelled as the set itself. -/
def selectwhere (data : List Row) (kwargs : List (String × Int)) : Option (Finset Row) :=
  if data.length = 0 then none
  else
    let selections := kwargs.map (fun kv => (searches data kv.1 kv.2).toFinset)
    intersect selections

/-- `DictCache`: the instance-level memoization dictionary. -/
structure DictCache (κ ν : Type) where
  _cache : List (κ × ν)

/-- `DictCache.cache(key, func)`: a hit returns the stored value; a miss calls
`func()` once, stores the result under `key` and returns the stored value.
The third component counts how many times `func` was invoked by this call. -/
def DictCache.cache {κ ν : Type} [DecidableEq κ] (c : DictCache κ ν) (key : κ)
    (func : Unit → ν) : ν × DictCache κ ν × Nat :=
  match dictLookup key c._cache with
  | some v => (v, c, 0)
  | none =>
    let v := func ()
    (v, ⟨c._cache ++ [(key, v)]⟩, 1)

/-- Whether `needle` is a prefix of `hay`, Boolean and executable. -/
def listStarts : Str → Str → Bool
  | [], _ => true
  | _ :: _, [] => false
  | a :: as, b :: bs => a == b && listStarts as bs

/-- Whether `needle` occurs contiguously anywhere inside `hay`. -/
def occursIn (needle : Str) : Str → Bool
  | [] => listStarts needle []
  | hay@(_ :: rest) => listStarts needle hay || occursIn needle rest

/-! ## Helper lemmas -/

theorem dropWhile_append_of_forall {p : Char → Bool} (l1 l2 : Str)
    (h : ∀ x ∈ l1, p x = true) :
    List.dropWhile p (l1 ++ l2) = List.dropWhile p l2 := by
  induction l1 with
  | nil => rfl
  | cons a as ih =>
    have ha : p a = true := h a (by simp)
    have hrest : ∀ x ∈ as, p x = true := fun x hx => h x (by simp [hx])
    simp [List.dropWhile_cons, ha, ih hrest]

theorem dictLookup_append_of_none {κ ν : Type} [DecidableEq κ] (key : κ)
    (l1 l2 : List (κ × ν)) (h : dictLookup key l1 = none) :
    dictLookup key (l1 ++ l2) = dictLookup key l2 := by
  induction l1 with
  | nil => rfl
  | cons kv rest ih =>
    obtain ⟨k, v⟩ := kv
    by_cases hk : k = key
    · simp [dictLookup, hk] at h
    · simp only [dictLookup, hk, if_false, List.cons_append, if_neg hk] at h ⊢
      exact ih h

theorem compileConstraint_isSome_of_normalize (k : Str) (v : Option Str) :
    (compileConstraint k (normalize v)).isSome = true := by
  match v with
  | none => rfl
  | some s =>
    by_cases h : (List.lookup (s.take 2) OPERATORS).isSome = true
    · obtain ⟨op, hop⟩ := Option.isSome_iff_exists.mp h
      simp only [normalize, h, if_true]
      simp [compileConstraint, hop, apply_ite Option.isSome]
    · have ht : ((str ("==")) ++ s).take 2 = str ("==") := rfl
      have hl : List.lookup (str ("==")) OPERATORS = some (str ("=")) := rfl
      simp only [normalize, h, if_false]
      simp [compileConstraint, ht, hl, apply_ite Option.isSome]

theorem buildWhere_isSome_of_normalize (kwargs : List (Str × Option Str)) :
    (buildWhere (kwargs.map (fun kv => (kv.1, normalize kv.2)))).isSome = true := by
  induction kwargs with
  | nil => rfl
  | cons kv rest ih =>
    obtain ⟨k, v⟩ := kv
    obtain ⟨c, hc⟩ := Option.isSome_iff_exists.mp (compileConstraint_isSome_of_normalize k v)
    obtain ⟨cs, hcs⟩ := Option.isSome_iff_exists.mp ih
    simp [buildWhere, hc, hcs]

/-! ## Claims -/

/-- C1: the claim says the SQL text handed to the adapter contains no
string-interpolated constraint values, so that two runs differing only in the
values produce the same SQL text. The code does the opposite: `_retrieve`
renders each value into the query with `{v[2:]!r}` and passes no bound
parameters, so the texts for `==alice` and `==bob` differ and the quoted value
occurs verbatim inside the emitted SQL. -/
theorem retrieve_sql_interpolates_values :
    retrieveSQL (str ("users")) (some [(str ("name"), str ("==alice"))]) =
      some (str ("SELECT * FROM users WHERE name = ") ++ pyRepr (str ("alice"))) ∧
    retrieveSQL (str ("users")) (some [(str ("name"), str ("==alice"))]) ≠
      retrieveSQL (str ("users")) (some [(str ("name"), str ("==bob"))]) ∧
    occursIn (pyRepr (str ("alice")))
      ((retrieveSQL (str ("users")) (some [(str ("name"), str ("==alice"))])).getD []) = true := by
  refine ⟨by decide, by decide, by decide⟩

/-- C2: the claim (and the spec example) requires
`intersect({1,2,3},{2,3,4},{3,4,5}) = {3}`. The code folds the working list
correctly but returns `result[0]`, the FIRST pairwise intersection, so for
three or more inputs it returns the intersection of only the first two sets:
`{2,3}` here. For exactly two inputs the result is still correct. -/
theorem intersect_three_sets_first_pair :
    intersect [({1, 2, 3} : Finset ℕ), {2, 3, 4}, {3, 4, 5}] = some {2, 3} ∧
    intersect [({1, 2, 3} : Finset ℕ), {2, 3, 4}, {3, 4, 5}] ≠ some {3} ∧
    intersect [({1, 2, 3} : Finset ℕ), {2, 3, 4}] = some {2, 3} := by
  refine ⟨by decide, by decide, by decide⟩

/-- C3: the claim (and the spec) requires `firstGap()` to return `3` on
primary keys `[1,2,4,5]` and `4` on `[1,2,3]`. In the code, the first loop
iteration assigns `previous = obj` and only afterwards reaches the dead
`if not previous: continue` guard, so `expected = firstRow + 1` is compared
against `firstRow` itself and immediately returned: on every nonempty table
`get_increment` returns the first primary value plus one. -/
theorem get_increment_returns_first_successor :
    (∀ (pv : Int) (rest : List Int), get_increment (pv :: rest) = some (pv + 1)) ∧
    get_increment [1, 2, 4, 5] = some 2 ∧
    get_increment [1, 2, 4, 5] ≠ some 3 ∧
    get_increment [1, 2, 3] = some 2 ∧
    get_increment [1, 2, 3] ≠ some 4 := by
  refine ⟨?_, by decide, by decide, by decide, by decide⟩
  intro pv rest
  have hne : ¬(pv + 1 = pv) := by omega
  simp [get_increment, getIncrementGo, hne]

/-- C4: `get` over the elements the inner `gets` call matched: zero matches
raise `KeyError` (NotFound), exactly one match is returned, two or more raise
`ResponseAmbiguousError`. -/
theorem get_result_count_trichotomy {α : Type} (elements : List α) :
    (elements.length = 0 → get elements = Except.error Err.keyError) ∧
    (∀ a, elements = [a] → get elements = Except.ok a) ∧
    (2 ≤ elements.length → get elements = Except.error Err.ambiguousError) := by
  refine ⟨?_, ?_, ?_⟩
  · intro h
    have he : elements = [] := List.length_eq_zero.mp h
    subst he; rfl
  · intro a h
    subst h; rfl
  · intro h
    rcases elements with _ | ⟨a, _ | ⟨b, rest⟩⟩
    · simp at h
    · simp at h
    · have hgt : (a :: b :: rest).length > 1 := by
        simp [List.length_cons]
      unfold get
      rw [if_pos hgt]

/-- Witness for C4 at concrete inputs: the empty, singleton and two-element
result lists. -/
theorem get_result_count_trichotomy_witness :
    get ([] : List ℕ) = Except.error Err.keyError ∧
    get [5] = Except.ok 5 ∧
    get [1, 2] = Except.error Err.ambiguousError :=
  ⟨(get_result_count_trichotomy ([] : List ℕ)).1 rfl,
   (get_result_count_trichotomy [5]).2.1 5 rfl,
   (get_result_count_trichotomy [1, 2]).2.2 (by decide)⟩

/-- C5: the claim says a constraint whose operator tag is not in the
comparator table fails with an `UnsupportedOperator` error. The code instead
normalizes such a value to `"==" + str(v)` in `gets` and compiles it as an
equality on the full string: the tag `!=` is silently accepted and the query
compares against the literal text `!=5`. No `UnsupportedOperator` error exists
anywhere in the module. -/
theorem unknown_tag_silently_accepted :
    normalize (some (str ("!=5"))) = str ("==!=5") ∧
    retrieveSQL (str ("t")) (some [(str ("name"), normalize (some (str ("!=5"))))]) =
      some (str ("SELECT * FROM t WHERE name = ") ++ pyRepr (str ("!=5"))) ∧
    retrieveSQL (str ("t")) (some [(str ("name"), str ("!=5"))]) = none := by
  refine ⟨by decide, by decide, by decide⟩

/-- C5 as amended: a value whose first two characters are not a key of the
comparator table is defaulted to an equality constraint on its full string
form by the `gets` normalization, and the compilation then succeeds; it is not
rejected (a raw, unnormalized unknown tag reaching `_retrieve` raises a plain
dict `KeyError`, not an `UnsupportedOperator` error). -/
theorem unknown_tag_defaults_to_equality (table k s : Str)
    (h : List.lookup (s.take 2) OPERATORS = none) :
    normalize (some s) = str ("==") ++ s ∧
    ∃ q, retrieveSQL table (some [(k, normalize (some s))]) = some q := by
  have hn : normalize (some s) = str ("==") ++ s := by
    simp [normalize, h]
  refine ⟨hn, ?_⟩
  have ht : ((str ("==")) ++ s).take 2 = str ("==") := rfl
  have hl : List.lookup (str ("==")) OPERATORS = some (str ("=")) := rfl
  have hne : ¬(str ("==") = str ("IS")) := by decide
  have hc : compileConstraint k (str ("==") ++ s) =
      some (k ++ str (" ") ++ str ("=") ++ str (" ") ++ pyRepr ((str ("==") ++ s).drop 2) ++ str (" AND ")) := by
    simp [compileConstraint, ht, hl, hne]
  rw [hn]
  simp [retrieveSQL, buildWhere, hc]

/-- Witness for C5 as amended, at the unknown tag `!>`. -/
theorem unknown_tag_defaults_to_equality_witness :
    normalize (some (str ("!>7"))) = str ("==") ++ str ("!>7") ∧
    ∃ q, retrieveSQL (str ("t2")) (some [(str ("age"), normalize (some (str ("!>7"))))]) = some q :=
  unknown_tag_defaults_to_equality (str ("t2")) (str ("age")) (str ("!>7")) (by decide)

/-- C7: `get_next_id` returns `1` on an empty table (the `IndexError` of
`gets()[-1]` is caught) and the last primary value plus one otherwise. -/
theorem get_next_id_empty_and_last (objs : List Int) :
    (objs = [] → get_next_id objs = 1) ∧
    (∀ pv, objs.getLast? = some pv → get_next_id objs = pv + 1) := by
  constructor
  · intro h; subst h; rfl
  · intro pv h
    simp [get_next_id, h]

/-- Witness for C7: the empty table and a table whose last primary key is 7. -/
theorem get_next_id_empty_and_last_witness :
    get_next_id [] = 1 ∧ get_next_id [3, 7] = 7 + 1 :=
  ⟨(get_next_id_empty_and_last []).1 rfl,
   (get_next_id_empty_and_last [3, 7]).2 7 (by decide)⟩

/-- C8: on a cache whose dictionary does not yet hold `key`, the first
`cache(key, func)` call invokes the producer exactly once; the second call on
the resulting cache invokes it zero times and returns the value stored by the
first call. -/
theorem cache_invokes_producer_once {κ ν : Type} [DecidableEq κ] (c : DictCache κ ν)
    (key : κ) (func : Unit → ν) (h : dictLookup key c._cache = none) :
    (c.cache key func).2.2 = 1 ∧
    (((c.cache key func).2.1).cache key func).2.2 = 0 ∧
    (((c.cache key func).2.1).cache key func).1 = (c.cache key func).1 := by
  have h1 : c.cache key func = (func (), ⟨c._cache ++ [(key, func ())]⟩, 1) := by
    simp [DictCache.cache, h]
  have h2 : dictLookup key (c._cache ++ [(key, func ())]) = some (func ()) := by
    rw [dictLookup_append_of_none key _ _ h]
    simp [dictLookup]
  rw [h1]
  simp [DictCache.cache, h2]

/-- Witness for C8: a fresh cache, the key 0 and a constant producer. -/
theorem cache_invokes_producer_once_witness :
    ((DictCache.mk ([] : List (ℕ × ℕ))).cache 0 (fun _ => 42)).2.2 = 1 ∧
    ((((DictCache.mk ([] : List (ℕ × ℕ))).cache 0 (fun _ => 42)).2.1).cache 0 (fun _ => 42)).2.2 = 0 ∧
    ((((DictCache.mk ([] : List (ℕ × ℕ))).cache 0 (fun _ => 42)).2.1).cache 0 (fun _ => 42)).1 =
      ((DictCache.mk ([] : List (ℕ × ℕ))).cache 0 (fun _ => 42)).1 :=
  cache_invokes_producer_once (DictCache.mk []) 0 (fun _ => 42) rfl

/-- C10: `intersect` applied to zero collections raises `IndexError` when it
indexes `_list[0]`, and consequently `selectwhere` with no keyword constraints
raises on every backing list, the nonempty ones included, instead of returning
the whole collection. -/
theorem intersect_no_args_selectwhere_no_kwargs :
    intersect ([] : List (Finset ℕ)) = none ∧
    (∀ (data : List Row), selectwhere data [] = none) ∧
    selectwhere [[("id", 1)]] [] = none := by
  refine ⟨rfl, ?_, by decide⟩
  intro data
  by_cases h : data.length = 0
  · simp [selectwhere, h]
  · simp [selectwhere, h, intersect]

/-- C6: the claim says that with an empty constraints mapping the compiled
query is exactly `SELECT * FROM <table-name>` for every entity type. The
final `strip("WHERE ")` removes trailing CHARACTERS of the set
`{W, H, E, R, space}`, not the substring, so a table named `TOWER` loses its
own tail and the query becomes `SELECT * FROM TO`. -/
theorem empty_constraints_table_name_truncated :
    retrieveSQL (str ("TOWER")) none = some (str ("SELECT * FROM TO")) ∧
    retrieveSQL (str ("TOWER")) none ≠ some (str ("SELECT * FROM TOWER")) := by
  refine ⟨by decide, by decide⟩

/-- C6 as amended: with no constraints the `WHERE` keyword is omitted, and
whenever the table name's last character is not one of the characters of
`"WHERE "` the compiled query is exactly `SELECT * FROM <table-name>` (the
character-wise `strip("WHERE ")` then removes exactly the dangling
`" WHERE "` it was aimed at and nothing of the table name). -/
theorem retrieve_empty_constraints_exact (t : Str) (c : Char)
    (h : List.contains (str ("WHERE ")) c = false) :
    retrieveSQL (t ++ [c]) none = some (str ("SELECT * FROM ") ++ (t ++ [c])) := by
  show some (finishQuery (t ++ [c]) (str ("WHERE "))) = _
  unfold finishQuery
  have hS : str ("SELECT * FROM ") = 'S' :: str ("ELECT * FROM ") := rfl
  have hW : (str ("WHERE ")).reverse = str (" EREHW") := rfl
  have hsp : List.reverse (str (" ")) = str (" ") := rfl
  unfold pyStrip
  rw [hS]
  simp only [List.cons_append, List.append_assoc]
  rw [List.dropWhile_cons_of_neg (by decide)]
  simp only [List.reverse_cons, List.reverse_append, hW, List.append_assoc,
    List.singleton_append, List.append_nil, List.nil_append]
  rw [hsp, dropWhile_append_of_forall _ _ (by decide),
    dropWhile_append_of_forall _ _ (by decide), List.cons_append, List.dropWhile_cons]
  simp [h, List.reverse_cons, List.reverse_append, List.reverse_reverse,
    List.append_assoc]
  intro hc
  simp at h
  exact absurd hc h

/-- Witness for C6 as amended: the table `users`, whose final `s` is not a
character of `"WHERE "`. -/
theorem retrieve_empty_constraints_exact_witness :
    retrieveSQL (str ("user") ++ ['s']) none =
      some (str ("SELECT * FROM ") ++ (str ("user") ++ ['s'])) :=
  retrieve_empty_constraints_exact (str ("user")) 's' (by decide)

/-- C9: `gets` itself never raises the not-found `KeyError`: its compile step
always succeeds after normalization, so it returns an `ok` row list (possibly
empty) for every constraints mapping, and therefore `fetchs` — which exists
only to convert a raised `KeyError` into the empty collection — returns
exactly the result of `gets`; its suppression branch is unreachable through
`gets` itself. -/
theorem gets_total_and_fetchs_refines {α : Type} (adapter : Str → List α)
    (table : Str) (kwargs : List (Str × Option Str)) :
    (∃ rows, gets adapter table kwargs = Except.ok rows) ∧
    fetchs adapter table kwargs = gets adapter table kwargs := by
  cases kwargs with
  | nil => exact ⟨⟨_, rfl⟩, rfl⟩
  | cons kv rest =>
    obtain ⟨body, hb⟩ :=
      Option.isSome_iff_exists.mp (buildWhere_isSome_of_normalize (kv :: rest))
    have hget : gets adapter table (kv :: rest) =
        Except.ok (adapter (finishQuery table
          (pyStrip (str (" AND ")) (str ("WHERE ") ++ body)))) := by
      simp only [List.map_cons] at hb
      simp [gets, retrieveSQL, hb]
    refine ⟨⟨_, hget⟩, ?_⟩
    unfold fetchs
    rw [hget]

end Psql
